import Mathlib

/-!
Verification of the url-shortener core against its source.

Time is modelled as an integer number of ticks; the Go comparison
a.After(b) becomes a > b. Go machine integers are modelled as Int.
The rate limiter state (the ips map of IPRateLimiter) is a function
from keys to optional entries. The repository collaborator is passed
as explicit functions (lookup / insert), matching the LinkRepository
interface the services are programmed against.
-/

namespace UrlShortener

/-- Entry of the rate limiter map, after IPLimitInfo in rate_limiter.go:
count, resetTime and lastAccess. -/
structure IPLimitInfo where
  count : Int
  resetTime : Int
  lastAccess : Int
  deriving Repr, DecidableEq

/-- Configuration of IPRateLimiter: maxRequest and window (a duration). -/
structure RateLimiterCfg where
  maxRequest : Int
  window : Int
  deriving Repr, DecidableEq

/-- The ips map of IPRateLimiter: keys (client IPs) to optional entries. -/
def RLState : Type := String → Option IPLimitInfo

/-- Pointwise update of the ips map, as the Go assignment rl.ips[ip] = info. -/
def rlUpdate (st : RLState) (ip : String) (info : IPLimitInfo) : RLState :=
  fun k => if k = ip then some info else st k

/-- Embedding of isAllowed from rate_limiter.go. Returns the boolean the Go
method returns together with the ips map the method leaves behind. The Go
method first looks the ip up; a missing entry is created with count 1 and
resetTime now + window. For an existing entry lastAccess is set to now,
then the window check now.After(resetTime) (strict) may reset the entry,
then the count is compared with maxRequest: at or above the limit the call
is rejected without touching count, otherwise count is incremented. -/
def isAllowed (rl : RateLimiterCfg) (st : RLState) (now : Int) (ip : String) :
    Bool × RLState :=
  match st ip with
  | none =>
      (true, rlUpdate st ip ⟨1, now + rl.window, now⟩)
  | some info =>
      if now > info.resetTime then
        (true, rlUpdate st ip ⟨1, now + rl.window, now⟩)
      else if info.count ≥ rl.maxRequest then
        (false, rlUpdate st ip ⟨info.count, info.resetTime, now⟩)
      else
        (true, rlUpdate st ip ⟨info.count + 1, info.resetTime, now⟩)

/-- Embedding of getRemainingRequests from rate_limiter.go: the value the Go
method returns, paired with the ips map as the method leaves it. -/
def getRemainingRequests (rl : RateLimiterCfg) (st : RLState) (now : Int)
    (ip : String) : Int × RLState :=
  match st ip with
  | none => (rl.maxRequest, st)
  | some info =>
      if now > info.resetTime then
        (rl.maxRequest, st)
      else
        let remaining := rl.maxRequest - info.count
        (if remaining < 0 then 0 else remaining, st)

/-- Embedding of getResetTime from rate_limiter.go: the value the Go method
returns, paired with the ips map as the method leaves it. -/
def getResetTime (rl : RateLimiterCfg) (st : RLState) (now : Int)
    (ip : String) : Int × RLState :=
  match st ip with
  | none => (now + rl.window, st)
  | some info =>
      if now > info.resetTime then (now + rl.window, st)
      else (info.resetTime, st)

/-- A sequence of isAllowed calls for one key, one call per timestamp in the
list, threading the ips map through; collects the returned booleans. -/
def allowSeq (rl : RateLimiterCfg) (ip : String) :
    RLState → List Int → List Bool × RLState
  | st, [] => ([], st)
  | st, t :: ts =>
      let r := isAllowed rl st t ip
      let rest := allowSeq rl ip r.2 ts
      (r.1 :: rest.1, rest.2)

theorem allowSeq_append (rl : RateLimiterCfg) (ip : String) (st : RLState)
    (xs ys : List Int) :
    allowSeq rl ip st (xs ++ ys) =
      ((allowSeq rl ip st xs).1 ++ (allowSeq rl ip (allowSeq rl ip st xs).2 ys).1,
       (allowSeq rl ip (allowSeq rl ip st xs).2 ys).2) := by
  induction xs generalizing st with
  | nil => simp [allowSeq]
  | cons x xs ih => simp [allowSeq, ih]

/-! ### Link model, repository errors and the link service -/

/-- Errors returned by the repository collaborator (LinkRepository).
recordNotFound models gorm.ErrRecordNotFound; uniqueConflict models a
uniqueness-constraint violation reported by the store on insert;
otherErr models any other database error. -/
inductive RepoError where
  | recordNotFound
  | uniqueConflict
  | otherErr (msg : String)
  deriving Repr, DecidableEq

/-- The Link record of models/link.go. ExpiresAt is the optional expiry
timestamp (nil pointer becomes none); IsCustom marks user-supplied
aliases. -/
structure Link where
  id : Nat
  shortCode : String
  longURL : String
  isActive : Bool := true
  expiresAt : Option Int := none
  isCustom : Bool := false
  deriving Repr, DecidableEq

/-- Embedding of Link.IsExpired from models/link.go: false when ExpiresAt is
nil, otherwise time.Now().After(ExpiresAt), a strict comparison. -/
def Link.IsExpired (l : Link) (now : Int) : Bool :=
  match l.expiresAt with
  | none => false
  | some t => now > t

/-- The fixed charset of link_service.go used for short-code generation. -/
def charset : String :=
  "abcdefghijklmnopqrstuvwxyzABCDEFGHIJKLMNOPQRSTUVWXYZ0123456789"

theorem charset_length : charset.data.length = 62 := by decide

/-- Embedding of GenerateShortCode from link_service.go: length characters,
each indexed into charset by a draw of the random source. The source
crypto/rand is modelled by the stream rnd of indices below len(charset);
draw i of the call is rnd i. -/
def GenerateShortCode (rnd : Nat → Fin 62) (length : Nat) : String :=
  String.mk ((List.range length).map
    (fun i => charset.data.get (Fin.cast charset_length.symm (rnd i))))

/-- Errors of the link service, one per return-error site of CreateLink and
its Go error messages: dbCheckError wraps a database error from the
uniqueness check, codeGenerationExhausted is the failed-after-retries
error, dbCreateError wraps an error from the repository insert. -/
inductive CreateError where
  | dbCheckError (e : RepoError)
  | codeGenerationExhausted
  | dbCreateError (e : RepoError)
  deriving Repr, DecidableEq

/-- The retry loop of CreateLink in link_service.go. The Go loop runs i from
0 while i < maxRetries with shortCode initially the empty string: attempt i
generates a candidate and queries the repository; on gorm.ErrRecordNotFound
the candidate is kept and the loop breaks, on any other database error the
function returns that error wrapped, and on a successful lookup (collision)
the loop continues. Here i is the attempt index and remaining the number of
iterations the for-condition still admits; falling off the loop yields the
still-empty shortCode. The stream rnd gives attempt i its six random draws
rnd i. -/
def shortCodeLoop (lookup : String → Except RepoError Link)
    (rnd : Nat → Nat → Fin 62) :
    Nat → Nat → Except CreateError String
  | _, 0 => .ok ""
  | i, r + 1 =>
      let code := GenerateShortCode (rnd i) 6
      match lookup code with
      | .error .recordNotFound => .ok code
      | .error e => .error (.dbCheckError e)
      | .ok _ => shortCodeLoop lookup rnd (i + 1) r

/-- Embedding of CreateLink from link_service.go. maxRetries is 5. After the
retry loop, the Go code returns the exhaustion error when shortCode is still
empty; otherwise it builds the Link and hands it to the repository insert,
wrapping an insert error; the repository collaborator is the pair lookup
(GetLinkByShortCode) and insert (CreateLink of the repository, none meaning
success). -/
def CreateLink (lookup : String → Except RepoError Link)
    (insert : Link → Option RepoError) (rnd : Nat → Nat → Fin 62)
    (longURL : String) : Except CreateError Link :=
  match shortCodeLoop lookup rnd 0 5 with
  | .error e => .error e
  | .ok shortCode =>
      if shortCode = "" then .error .codeGenerationExhausted
      else
        let link : Link := { id := 0, shortCode := shortCode, longURL := longURL }
        match insert link with
        | some e => .error (.dbCreateError e)
        | none => .ok link

/-! ### Custom alias allocation -/

/-- Errors of CreateLinkWithCustomAlias, one per return-error site in the
source, in source order: empty alias, length outside [3,20], a character
outside the allowed class, a reserved word, alias already used, a database
error from the existence check, and an error from the repository insert. -/
inductive AliasError where
  | emptyAlias
  | badLength
  | badCharset
  | reservedWord
  | alreadyUsed
  | dbCheckError (e : RepoError)
  | createFailed (e : RepoError)
  deriving Repr, DecidableEq

/-- One character of the class [a-zA-Z0-9-] of the validation regex. -/
def isAliasChar (c : Char) : Bool :=
  (Char.ofNat 97 ≤ c && c ≤ Char.ofNat 122) ||
  (Char.ofNat 65 ≤ c && c ≤ Char.ofNat 90) ||
  (Char.ofNat 48 ≤ c && c ≤ Char.ofNat 57) ||
  c = Char.ofNat 45

/-- The whole-string regex of the alias validation: one or more characters,
each in the class. -/
def validAliasPattern (s : String) : Bool :=
  !s.data.isEmpty && s.data.all isAliasChar

/-- The reserved-word denylist of CreateLinkWithCustomAlias. -/
def reservedWords : List String :=
  ["api", "health", "stats", "admin", "create", "delete"]

/-- Go's len on a string counts bytes of the UTF-8 encoding. -/
def goLen (s : String) : Nat := s.utf8ByteSize

/-- Embedding of CreateLinkWithCustomAlias from the link service. The checks
run in source order: empty; byte length in [3,20]; regex over the characters;
reserved words; then the repository existence check, where a successful
lookup means the alias is taken, gorm.ErrRecordNotFound means it is free and
any other error is wrapped. On success a Link with IsCustom true is built
and inserted, an insert error being wrapped. -/
def CreateLinkWithCustomAlias (lookup : String → Except RepoError Link)
    (insert : Link → Option RepoError) (longURL customAlias : String) :
    Except AliasError Link :=
  if customAlias = "" then .error .emptyAlias
  else if goLen customAlias < 3 ∨ goLen customAlias > 20 then .error .badLength
  else if !validAliasPattern customAlias then .error .badCharset
  else if customAlias ∈ reservedWords then .error .reservedWord
  else
    match lookup customAlias with
    | .ok _ => .error .alreadyUsed
    | .error .recordNotFound =>
        let link : Link :=
          { id := 0, shortCode := customAlias, longURL := longURL, isCustom := true }
        match insert link with
        | some e => .error (.createFailed e)
        | none => .ok link
    | .error e => .error (.dbCheckError e)

/-! ### Click events, the buffered channel and the redirect handler -/

/-- The ClickEvent of the models package: link id, timestamp, user agent and
client IP, built by the redirect handler at redirect time. -/
structure ClickEvent where
  linkID : Nat
  timestamp : Int
  userAgent : String
  ipAddress : String
  deriving Repr, DecidableEq

/-- The buffered ClickEventsChannel: its pending events in FIFO order,
bounded by the capacity the channel was created with. -/
abbrev EventQueue : Type := List ClickEvent

/-- The non-blocking send of handlers.go, the select with a default case on
ClickEventsChannel: when the buffer has room the event is appended and true
is returned, otherwise the event is dropped and false is returned; the
caller is never suspended. -/
def tryEmit (cap : Nat) (q : EventQueue) (e : ClickEvent) : Bool × EventQueue :=
  if q.length < cap then (true, q ++ [e]) else (false, q)

/-- Outcome of one redirect request, one constructor per response site of
RedirectHandler in handlers.go. -/
inductive RedirectOutcome where
  | notFound
  | internalError
  | expired (expiredAt : Int)
  | delivered (longURL : String)
  deriving Repr, DecidableEq

/-- The HTTP status each outcome is written with in handlers.go:
StatusNotFound, StatusInternalServerError, StatusGone, StatusFound. -/
def RedirectOutcome.status : RedirectOutcome → Nat
  | .notFound => 404
  | .internalError => 500
  | .expired _ => 410
  | .delivered _ => 302

/-- Embedding of RedirectHandler from handlers.go for one request. The
lookup result stands for linkService.GetLinkByShortCode on the request's
short code: gorm.ErrRecordNotFound becomes 404, another error 500. A found
link that IsExpired yields 410 carrying the expiry timestamp, before any
click event exists. Otherwise the ClickEvent is built, offered to the
channel with the non-blocking send, and the 302 redirect to LongURL is
returned whatever the send did. The pair returned is the outcome and the
channel buffer after the request. -/
def RedirectHandler (lookup : Except RepoError Link) (now : Int)
    (userAgent clientIP : String) (cap : Nat) (q : EventQueue) :
    RedirectOutcome × EventQueue :=
  match lookup with
  | .error .recordNotFound => (.notFound, q)
  | .error _ => (.internalError, q)
  | .ok link =>
      if link.IsExpired now then
        (.expired (link.expiresAt.getD 0), q)
      else
        let ev : ClickEvent := ⟨link.id, now, userAgent, clientIP⟩
        let sent := tryEmit cap q ev
        (.delivered link.longURL, sent.2)

/-! ### Theorems for the rate limiter claims -/

/-- Claim C9: for every key and every limiter state, the read-only
operations getRemainingRequests and getResetTime leave the limiter state
completely unchanged; no entry is created and no entry is mutated. -/
theorem remaining_resetAt_readonly (rl : RateLimiterCfg) (st : RLState)
    (now : Int) (ip : String) :
    (getRemainingRequests rl st now ip).2 = st ∧
    (getResetTime rl st now ip).2 = st := by
  constructor
  · cases h : st ip <;> simp [getRemainingRequests, h]
    split <;> rfl
  · cases h : st ip <;> simp [getResetTime, h]
    split <;> rfl

/-- Claim C10: for a key with no entry, isAllowed creates an entry with
count 1, resetTime now + window and lastAccess now, returns true, touches
no other key, and the whole result is independent of maxRequest, so the
first request of a window is allowed even when maxRequest is zero or
negative. -/
theorem allow_fresh_key (rl : RateLimiterCfg) (st : RLState) (now : Int)
    (ip : String) (hfresh : st ip = none) :
    (isAllowed rl st now ip).1 = true ∧
    (isAllowed rl st now ip).2 ip = some ⟨1, now + rl.window, now⟩ ∧
    (∀ k, k ≠ ip → (isAllowed rl st now ip).2 k = st k) ∧
    (∀ m : Int, isAllowed ⟨m, rl.window⟩ st now ip = isAllowed rl st now ip) := by
  refine ⟨?_, ?_, ?_, ?_⟩ <;>
    simp [isAllowed, hfresh, rlUpdate]
  intro k hk
  simp [hk]

/-- The empty limiter state: no key has an entry yet. -/
def emptyRL : RLState := fun _ => none

/-- Witness for allow_fresh_key at a concrete input with maxRequest 0. -/
theorem allow_fresh_key_witness :
    emptyRL "10.0.0.7" = none ∧
    (isAllowed ⟨0, 60⟩ emptyRL 5 "10.0.0.7").1 = true :=
  ⟨rfl, (allow_fresh_key ⟨0, 60⟩ emptyRL 5 "10.0.0.7" rfl).1⟩

/-- A concrete limiter state for the window-boundary analysis: key k with
count 1, resetTime 100, lastAccess 50. -/
def boundarySt : RLState :=
  fun k => if k = "k" then some ⟨1, 100, 50⟩ else none

/-- Claim C2, counterexample at the window boundary: with maxRequest 1 and
window 10, an entry with count 1 and resetTime 100, a call at now = 100
(now equal to the reset time) is rejected and the entry keeps count 1 and
resetTime 100 instead of being reset: the Go check now.After(resetTime) is
strict, so the claimed boundary case fails. -/
theorem window_reset_boundary_counterexample :
    (isAllowed ⟨1, 10⟩ boundarySt 100 "k").1 = false ∧
    (isAllowed ⟨1, 10⟩ boundarySt 100 "k").2 "k" = some ⟨1, 100, 100⟩ := by
  constructor <;> rfl

/-- Claim C2 amended: for every key with an existing entry, if now is
strictly after windowResetAt, the next allow call returns true, resets the
count to exactly 1 and moves the reset time to now + window; at now equal
to windowResetAt the window has not yet rolled over and the call is handled
by the in-window rules. -/
theorem window_reset_strictly_after (rl : RateLimiterCfg) (st : RLState)
    (now : Int) (ip : String) (info : IPLimitInfo)
    (hst : st ip = some info) (hgt : info.resetTime < now) :
    isAllowed rl st now ip =
      (true, rlUpdate st ip ⟨1, now + rl.window, now⟩) := by
  simp [isAllowed, hst, hgt]

/-- Witness for window_reset_strictly_after at a concrete input. -/
theorem window_reset_strictly_after_witness :
    boundarySt "k" = some ⟨1, 100, 50⟩ ∧
    isAllowed ⟨1, 10⟩ boundarySt 120 "k" =
      (true, rlUpdate boundarySt "k" ⟨1, 130, 120⟩) :=
  ⟨rfl, window_reset_strictly_after ⟨1, 10⟩ boundarySt 120 "k" ⟨1, 100, 50⟩ rfl
    (by decide)⟩

/-! ### Theorems for the redirect pipeline claims -/

/-- Claim C3: a link whose expiry timestamp is set and strictly before the
current time yields the expired outcome, written with HTTP status 410 and
carrying the expiry timestamp, and the channel buffer is unchanged (no
click event is emitted), for every buffer content and capacity, so the
outcome is independent of whether an emit could have succeeded. -/
theorem redirect_expired_link (link : Link) (now t : Int)
    (userAgent clientIP : String) (cap : Nat) (q : EventQueue)
    (hexp : link.expiresAt = some t) (hlt : t < now) :
    RedirectHandler (.ok link) now userAgent clientIP cap q = (.expired t, q) ∧
    (RedirectOutcome.expired t).status = 410 := by
  have hex : link.IsExpired now = true := by
    simp [Link.IsExpired, hexp]; omega
  refine ⟨?_, rfl⟩
  simp [RedirectHandler, hex, hexp]

/-- Witness for redirect_expired_link at a concrete input. -/
theorem redirect_expired_link_witness :
    ({ id := 1, shortCode := "abc123", longURL := "https://example.com",
       expiresAt := some 5 } : Link).expiresAt = some 5 ∧ (5:Int) < 10 ∧
    RedirectHandler
      (.ok { id := 1, shortCode := "abc123", longURL := "https://example.com",
             expiresAt := some 5 }) 10 "ua" "1.2.3.4" 1000 [] =
      (.expired 5, []) :=
  ⟨rfl, by decide,
    (redirect_expired_link _ 10 5 "ua" "1.2.3.4" 1000 [] rfl (by decide)).1⟩

/-- Claim C4: when the channel buffer is at capacity, the non-blocking send
returns false and leaves the buffer unchanged (the event is discarded), and
the redirect to the link's long URL is still delivered with HTTP status
302. -/
theorem redirect_queue_full (link : Link) (now : Int)
    (userAgent clientIP : String) (cap : Nat) (q : EventQueue)
    (hlive : link.IsExpired now = false) (hfull : cap ≤ q.length) :
    tryEmit cap q ⟨link.id, now, userAgent, clientIP⟩ = (false, q) ∧
    RedirectHandler (.ok link) now userAgent clientIP cap q =
      (.delivered link.longURL, q) ∧
    (RedirectOutcome.delivered link.longURL).status = 302 := by
  have hnlt : ¬ q.length < cap := by omega
  refine ⟨?_, ?_, rfl⟩ <;> simp [tryEmit, RedirectHandler, hlive, hnlt]

/-- Witness for redirect_queue_full at a concrete input: capacity 1, one
pending event, a link with no expiry. -/
theorem redirect_queue_full_witness :
    ({ id := 2, shortCode := "abc124", longURL := "https://example.org" }
        : Link).IsExpired 10 = false ∧ (1:Nat) ≤ [(⟨9, 1, "u", "i"⟩ : ClickEvent)].length ∧
    RedirectHandler
      (.ok { id := 2, shortCode := "abc124", longURL := "https://example.org" })
      10 "ua" "1.2.3.4" 1 [⟨9, 1, "u", "i"⟩] =
      (.delivered "https://example.org", [⟨9, 1, "u", "i"⟩]) :=
  ⟨rfl, by decide,
    (redirect_queue_full
      { id := 2, shortCode := "abc124", longURL := "https://example.org" }
      10 "ua" "1.2.3.4" 1 [⟨9, 1, "u", "i"⟩] rfl (by decide)).2.1⟩

/-! ### Theorems for the code allocator claims -/

theorem GenerateShortCode_length (rnd : Nat → Fin 62) (n : Nat) :
    (GenerateShortCode rnd n).length = n := by
  show ((List.range n).map _).length = n
  simp

theorem GenerateShortCode_mem (rnd : Nat → Fin 62) (n : Nat) :
    ∀ c ∈ (GenerateShortCode rnd n).data, c ∈ charset.data := by
  intro c hc
  simp only [GenerateShortCode, String.mk, List.mem_map, List.mem_range] at hc
  obtain ⟨i, _, rfl⟩ := hc
  exact List.get_mem _ _ _

theorem GenerateShortCode_ne_empty (rnd : Nat → Fin 62) :
    GenerateShortCode rnd 6 ≠ "" := by
  intro h
  have := GenerateShortCode_length rnd 6
  rw [h] at this
  simp [String.length] at this

/-- A lookup that reports every code as taken: the all-collisions
repository used to exercise retry exhaustion. -/
def lookupAll : String → Except RepoError Link :=
  fun s => .ok { id := 0, shortCode := s, longURL := "x" }

/-- A lookup that reports every code as free (gorm.ErrRecordNotFound). -/
def lookupFree : String → Except RepoError Link :=
  fun _ => .error .recordNotFound

/-- An insert that always succeeds. -/
def insertOk : Link → Option RepoError := fun _ => none

/-- An insert that always reports a uniqueness conflict, as a concurrent
writer who took the code between the check and the insert would cause. -/
def insertConflict : Link → Option RepoError := fun _ => some .uniqueConflict

/-- The all-zero random stream: every attempt generates the same code. -/
def rnd0 : Nat → Nat → Fin 62 := fun _ _ => 0

/-- Claim C5: when every one of the five candidates is already present in
the repository, CreateLink stops and returns the code-generation-exhausted
failure; the result holds for every insert function and every long URL (no
link is inserted), and only the candidates of attempts 0 through 4 are ever
consulted: any lookup that agrees on those five candidates produces the
same exhausted outcome, so the loop never retries beyond the ceiling. -/
theorem create_exhausts_after_five (lookup : String → Except RepoError Link)
    (rnd : Nat → Nat → Fin 62)
    (hcol : ∀ i, i < 5 → ∃ l, lookup (GenerateShortCode (rnd i) 6) = .ok l) :
    (∀ insert url, CreateLink lookup insert rnd url =
      .error .codeGenerationExhausted) ∧
    (∀ lookup2 : String → Except RepoError Link,
      (∀ i, i < 5 → lookup2 (GenerateShortCode (rnd i) 6) =
        lookup (GenerateShortCode (rnd i) 6)) →
      ∀ insert url, CreateLink lookup2 insert rnd url =
        .error .codeGenerationExhausted) := by
  have key : ∀ lookup2 : String → Except RepoError Link,
      (∀ i, i < 5 → lookup2 (GenerateShortCode (rnd i) 6) =
        lookup (GenerateShortCode (rnd i) 6)) →
      ∀ insert url, CreateLink lookup2 insert rnd url =
        .error .codeGenerationExhausted := by
    intro lookup2 hag insert url
    obtain ⟨l0, h0⟩ := hcol 0 (by omega)
    obtain ⟨l1, h1⟩ := hcol 1 (by omega)
    obtain ⟨l2, h2⟩ := hcol 2 (by omega)
    obtain ⟨l3, h3⟩ := hcol 3 (by omega)
    obtain ⟨l4, h4⟩ := hcol 4 (by omega)
    have g0 : lookup2 (GenerateShortCode (rnd 0) 6) = .ok l0 := by
      rw [hag 0 (by omega), h0]
    have g1 : lookup2 (GenerateShortCode (rnd 1) 6) = .ok l1 := by
      rw [hag 1 (by omega), h1]
    have g2 : lookup2 (GenerateShortCode (rnd 2) 6) = .ok l2 := by
      rw [hag 2 (by omega), h2]
    have g3 : lookup2 (GenerateShortCode (rnd 3) 6) = .ok l3 := by
      rw [hag 3 (by omega), h3]
    have g4 : lookup2 (GenerateShortCode (rnd 4) 6) = .ok l4 := by
      rw [hag 4 (by omega), h4]
    simp [CreateLink, shortCodeLoop, g0, g1, g2, g3, g4]
  exact ⟨fun insert url => key lookup (fun i _ => rfl) insert url, key⟩

/-- Witness for create_exhausts_after_five: with the all-collisions lookup
and the constant random stream, allocation fails exhausted. -/
theorem create_exhausts_after_five_witness :
    (∀ i, i < 5 → ∃ l, lookupAll (GenerateShortCode (rnd0 i) 6) = .ok l) ∧
    CreateLink lookupAll insertOk rnd0 "https://example.com" =
      .error .codeGenerationExhausted :=
  ⟨fun _ _ => ⟨_, rfl⟩,
    (create_exhausts_after_five lookupAll rnd0 (fun _ _ => ⟨_, rfl⟩)).1
      insertOk "https://example.com"⟩

/-- A non-empty code returned by the retry loop is one of the generated
candidates and the repository reported it absent at the existence check. -/
theorem shortCodeLoop_ok (lookup : String → Except RepoError Link)
    (rnd : Nat → Nat → Fin 62) :
    ∀ (r i : Nat) (code : String), shortCodeLoop lookup rnd i r = .ok code →
      code ≠ "" →
      ∃ j, code = GenerateShortCode (rnd j) 6 ∧
        lookup code = .error .recordNotFound := by
  intro r
  induction r with
  | zero =>
      intro i code h hne
      simp [shortCodeLoop] at h
      exact absurd h.symm hne
  | succ r ih =>
      intro i code h hne
      rw [shortCodeLoop] at h
      cases hl : lookup (GenerateShortCode (rnd i) 6) with
      | ok l =>
          rw [hl] at h
          exact ih (i + 1) code h hne
      | error e =>
          cases e with
          | recordNotFound =>
              rw [hl] at h
              simp at h
              exact ⟨i, h.symm, h ▸ hl⟩
          | uniqueConflict => rw [hl] at h; simp at h
          | otherErr msg => rw [hl] at h; simp at h

/-- Claim C8: every successful random allocation returns a link whose code
has exactly 6 characters, all drawn from the fixed alphanumeric charset,
and which the repository reported absent at the pre-insert existence
check. -/
theorem create_success_code_props (lookup : String → Except RepoError Link)
    (insert : Link → Option RepoError) (rnd : Nat → Nat → Fin 62)
    (url : String) (link : Link)
    (hok : CreateLink lookup insert rnd url = .ok link) :
    link.shortCode.length = 6 ∧
    (∀ c ∈ link.shortCode.data, c ∈ charset.data) ∧
    lookup link.shortCode = .error .recordNotFound := by
  rw [CreateLink] at hok
  cases hsl : shortCodeLoop lookup rnd 0 5 with
  | error e => rw [hsl] at hok; simp at hok
  | ok code =>
      rw [hsl] at hok
      dsimp only at hok
      by_cases hc : code = ""
      · simp [hc] at hok
      · rw [if_neg hc] at hok
        cases hins : insert { id := 0, shortCode := code, longURL := url } with
        | some e => rw [hins] at hok; simp at hok
        | none =>
            rw [hins] at hok
            simp at hok
            obtain ⟨j, hj, hfree⟩ := shortCodeLoop_ok lookup rnd 5 0 code hsl hc
            have hsc : link.shortCode = code := by rw [← hok]
            refine ⟨?_, ?_, ?_⟩
            · rw [hsc, hj]; exact GenerateShortCode_length (rnd j) 6
            · rw [hsc, hj]; exact GenerateShortCode_mem (rnd j) 6
            · rw [hsc]; exact hfree

/-- Witness for create_success_code_props: with every code free and a
succeeding insert, the constant random stream allocates "aaaaaa". -/
theorem create_success_code_props_witness :
    CreateLink lookupFree insertOk rnd0 "https://example.com" =
      .ok { id := 0, shortCode := "aaaaaa", longURL := "https://example.com" } ∧
    ("aaaaaa" : String).length = 6 :=
  ⟨rfl,
    (create_success_code_props lookupFree insertOk rnd0 "https://example.com"
      { id := 0, shortCode := "aaaaaa", longURL := "https://example.com" }
      rfl).1⟩

/-- Claim C7, counterexample: with every candidate free at the existence
check but an insert that reports a uniqueness conflict (as a concurrent
writer would cause), the random mode returns the wrapped database-create
error instead of retrying, and the custom mode returns the wrapped
database-create error instead of the already-used validation error: the
insert conflict is propagated, not treated as a collision. -/
theorem insert_conflict_not_collision_counterexample :
    CreateLink lookupFree insertConflict rnd0 "https://example.com" =
      .error (.dbCreateError .uniqueConflict) ∧
    CreateLinkWithCustomAlias lookupFree insertConflict
      "https://example.com" "promo" = .error (.createFailed .uniqueConflict) := by
  exact ⟨rfl, rfl⟩

/-- Claim C7 amended: an insert failure, a uniqueness conflict included, is
propagated as a wrapped creation error in both modes: the random mode does
not retry with a new candidate, and the custom mode does not report the
alias as already used. -/
theorem insert_failure_propagated (lookup : String → Except RepoError Link)
    (insert : Link → Option RepoError) (rnd : Nat → Nat → Fin 62)
    (url customAlias : String) (e : RepoError)
    (hfree : lookup (GenerateShortCode (rnd 0) 6) = .error .recordNotFound)
    (hins : insert { id := 0, shortCode := GenerateShortCode (rnd 0) 6,
                     longURL := url } = some e)
    (hne : customAlias ≠ "")
    (hlo : 3 ≤ goLen customAlias) (hhi : goLen customAlias ≤ 20)
    (hpat : validAliasPattern customAlias = true)
    (hres : customAlias ∉ reservedWords)
    (hfreeC : lookup customAlias = .error .recordNotFound)
    (hinsC : insert { id := 0, shortCode := customAlias, longURL := url,
                      isCustom := true } = some e) :
    CreateLink lookup insert rnd url = .error (.dbCreateError e) ∧
    CreateLinkWithCustomAlias lookup insert url customAlias =
      .error (.createFailed e) := by
  constructor
  · rw [CreateLink, shortCodeLoop]
    rw [hfree]
    simp only
    rw [if_neg (GenerateShortCode_ne_empty (rnd 0)), hins]
  · rw [CreateLinkWithCustomAlias, if_neg hne, if_neg (by omega), if_neg (by
      simp [hpat]), if_neg hres, hfreeC]
    simp only
    rw [hinsC]

/-- Witness for insert_failure_propagated at concrete inputs. -/
theorem insert_failure_propagated_witness :
    lookupFree (GenerateShortCode (rnd0 0) 6) = .error .recordNotFound ∧
    CreateLink lookupFree insertConflict rnd0 "https://x.org" =
      .error (.dbCreateError .uniqueConflict) ∧
    CreateLinkWithCustomAlias lookupFree insertConflict "https://x.org"
      "sales" = .error (.createFailed .uniqueConflict) := by
  refine ⟨rfl, ?_, ?_⟩
  · exact (insert_failure_propagated lookupFree insertConflict rnd0
      "https://x.org" "sales" .uniqueConflict rfl rfl (by decide) (by decide)
      (by decide) (by decide) (by decide) rfl rfl).1
  · exact (insert_failure_propagated lookupFree insertConflict rnd0
      "https://x.org" "sales" .uniqueConflict rfl rfl (by decide) (by decide)
      (by decide) (by decide) (by decide) rfl rfl).2

/-- Claim C6: CreateLinkWithCustomAlias applies its validation rules in
source order — non-empty, byte length in [3,20], characters in the class of
letters, digits and hyphen, not a reserved word, not already in use — and
any violation yields the error of the first violated rule, for every insert
function, so no link record is created; in particular an alias already
present in the repository fails as already used for every insert function,
so no second record with that code is created. -/
theorem custom_alias_validation_order (lookup : String → Except RepoError Link)
    (url customAlias : String) :
    (∀ insert, CreateLinkWithCustomAlias lookup insert url "" =
      .error .emptyAlias) ∧
    (customAlias ≠ "" → (goLen customAlias < 3 ∨ 20 < goLen customAlias) →
      ∀ insert, CreateLinkWithCustomAlias lookup insert url customAlias =
        .error .badLength) ∧
    (customAlias ≠ "" → 3 ≤ goLen customAlias → goLen customAlias ≤ 20 →
      validAliasPattern customAlias = false →
      ∀ insert, CreateLinkWithCustomAlias lookup insert url customAlias =
        .error .badCharset) ∧
    (customAlias ≠ "" → 3 ≤ goLen customAlias → goLen customAlias ≤ 20 →
      validAliasPattern customAlias = true → customAlias ∈ reservedWords →
      ∀ insert, CreateLinkWithCustomAlias lookup insert url customAlias =
        .error .reservedWord) ∧
    (∀ l : Link, customAlias ≠ "" → 3 ≤ goLen customAlias →
      goLen customAlias ≤ 20 → validAliasPattern customAlias = true →
      customAlias ∉ reservedWords → lookup customAlias = .ok l →
      ∀ insert, CreateLinkWithCustomAlias lookup insert url customAlias =
        .error .alreadyUsed) := by
  refine ⟨fun insert => rfl, ?_, ?_, ?_, ?_⟩
  · intro hne hbad insert
    rw [CreateLinkWithCustomAlias, if_neg hne, if_pos hbad]
  · intro hne hlo hhi hpat insert
    rw [CreateLinkWithCustomAlias, if_neg hne, if_neg (by omega),
      if_pos (by simp [hpat])]
  · intro hne hlo hhi hpat hmem insert
    rw [CreateLinkWithCustomAlias, if_neg hne, if_neg (by omega),
      if_neg (by simp [hpat]), if_pos hmem]
  · intro l hne hlo hhi hpat hnres hlook insert
    rw [CreateLinkWithCustomAlias, if_neg hne, if_neg (by omega),
      if_neg (by simp [hpat]), if_neg hnres, hlook]

/-- Witness for custom_alias_validation_order: one concrete alias per
validation rule, each rejected with the error of its first violated
rule. -/
theorem custom_alias_validation_order_witness :
    CreateLinkWithCustomAlias lookupAll insertOk "u" "" = .error .emptyAlias ∧
    CreateLinkWithCustomAlias lookupAll insertOk "u" "ab" =
      .error .badLength ∧
    CreateLinkWithCustomAlias lookupAll insertOk "u" "a_bc" =
      .error .badCharset ∧
    CreateLinkWithCustomAlias lookupAll insertOk "u" "api" =
      .error .reservedWord ∧
    CreateLinkWithCustomAlias lookupAll insertOk "u" "promo" =
      .error .alreadyUsed :=
  ⟨(custom_alias_validation_order lookupAll "u" "").1 insertOk,
   (custom_alias_validation_order lookupAll "u" "ab").2.1 (by decide)
     (by decide) insertOk,
   (custom_alias_validation_order lookupAll "u" "a_bc").2.2.1 (by decide)
     (by decide) (by decide) (by decide) insertOk,
   (custom_alias_validation_order lookupAll "u" "api").2.2.2.1 (by decide)
     (by decide) (by decide) (by decide) (by decide) insertOk,
   (custom_alias_validation_order lookupAll "u" "promo").2.2.2.2
     { id := 0, shortCode := "promo", longURL := "x" } (by decide) (by decide)
     (by decide) (by decide) (by decide) rfl insertOk⟩

/-- In-window accumulation: from an entry with count c and reset time R,
a sequence of calls all at or before R with room left in the window is
fully allowed and raises the count by exactly the number of calls, leaving
the reset time in place. -/
theorem allowSeq_within (rl : RateLimiterCfg) (ip : String) :
    ∀ (ts : List Int) (st : RLState) (c R last : Int),
      st ip = some ⟨c, R, last⟩ →
      (∀ t ∈ ts, t ≤ R) →
      c + ts.length ≤ rl.maxRequest →
      (allowSeq rl ip st ts).1 = List.replicate ts.length true ∧
      ∃ l, (allowSeq rl ip st ts).2 ip = some ⟨c + ts.length, R, l⟩ := by
  intro ts
  induction ts with
  | nil =>
      intro st c R last hst _ _
      exact ⟨rfl, last, by simpa using hst⟩
  | cons t ts ih =>
      intro st c R last hst hts hc
      have ht : t ≤ R := hts t (by simp)
      have hlen : ((t :: ts).length : Int) = (ts.length : Int) + 1 := by
        simp
      have hcnt : c < rl.maxRequest := by
        rw [hlen] at hc; omega
      have step : isAllowed rl st t ip = (true, rlUpdate st ip ⟨c + 1, R, t⟩) := by
        simp [isAllowed, hst, show ¬ t > R by omega,
          show ¬ c ≥ rl.maxRequest by omega]
      have hst2 : rlUpdate st ip ⟨c + 1, R, t⟩ ip = some ⟨c + 1, R, t⟩ := by
        simp [rlUpdate]
      obtain ⟨h1, l, h2⟩ := ih (rlUpdate st ip ⟨c + 1, R, t⟩) (c + 1) R t hst2
        (fun u hu => hts u (by simp [hu])) (by rw [hlen] at hc; omega)
      refine ⟨?_, l, ?_⟩
      · simp [allowSeq, step, h1, List.replicate_succ]
      · have : c + ((t :: ts).length : Int) = (c + 1) + (ts.length : Int) := by
          rw [hlen]; ring
        rw [this]
        simpa [allowSeq, step] using h2

/-- Claim C1: for a fresh key and with at least one request allowed per
window, a run of maxRequest + 1 calls inside one window (the first call at
t0 opens the window, every later call at or before t0 + window) returns
true for the first maxRequest calls and false for the last one, and the
rejected call leaves the stored count at maxRequest. -/
theorem rate_limit_window (rl : RateLimiterCfg) (st : RLState) (ip : String)
    (t0 : Int) (ts : List Int) (tlast : Int)
    (hfresh : st ip = none) (_hmax : 1 ≤ rl.maxRequest)
    (hlen : (ts.length : Int) = rl.maxRequest - 1)
    (hwin : ∀ t ∈ ts, t ≤ t0 + rl.window)
    (hlast : tlast ≤ t0 + rl.window) :
    (allowSeq rl ip st (t0 :: ts ++ [tlast])).1 =
      List.replicate (ts.length + 1) true ++ [false] ∧
    ∃ l, (allowSeq rl ip st (t0 :: ts ++ [tlast])).2 ip =
      some ⟨rl.maxRequest, t0 + rl.window, l⟩ := by
  have step0 : isAllowed rl st t0 ip =
      (true, rlUpdate st ip ⟨1, t0 + rl.window, t0⟩) := by
    simp [isAllowed, hfresh]
  have hst1 : rlUpdate st ip ⟨1, t0 + rl.window, t0⟩ ip =
      some ⟨1, t0 + rl.window, t0⟩ := by simp [rlUpdate]
  obtain ⟨h1, l, h2⟩ := allowSeq_within rl ip ts
    (rlUpdate st ip ⟨1, t0 + rl.window, t0⟩) 1 (t0 + rl.window) t0 hst1 hwin
    (by omega)
  have hcnt : (1 : Int) + ts.length = rl.maxRequest := by omega
  rw [hcnt] at h2
  set st2 := (allowSeq rl ip (rlUpdate st ip ⟨1, t0 + rl.window, t0⟩) ts).2
    with hst2def
  have steplast : isAllowed rl st2 tlast ip =
      (false, rlUpdate st2 ip ⟨rl.maxRequest, t0 + rl.window, tlast⟩) := by
    simp [isAllowed, h2, show ¬ tlast > t0 + rl.window by omega, le_refl]
  have happ := allowSeq_append rl ip (rlUpdate st ip ⟨1, t0 + rl.window, t0⟩)
    ts [tlast]
  constructor
  · show (allowSeq rl ip st (t0 :: (ts ++ [tlast]))).1 = _
    simp only [allowSeq, step0, happ, h1]
    simp [allowSeq, steplast, List.replicate_succ]
  · refine ⟨tlast, ?_⟩
    show (allowSeq rl ip st (t0 :: (ts ++ [tlast]))).2 ip = _
    simp only [allowSeq, step0, happ]
    simp [allowSeq, steplast, rlUpdate]

/-- Witness for rate_limit_window: maxRequest 2, window 10, calls at 0, 3
and 7: allowed, allowed, rejected. -/
theorem rate_limit_window_witness :
    (allowSeq ⟨2, 10⟩ "1.2.3.4" emptyRL [0, 3, 7]).1 =
      List.replicate 2 true ++ [false] :=
  (rate_limit_window ⟨2, 10⟩ emptyRL "1.2.3.4" 0 [3] 7 rfl (by decide)
    (by decide) (by decide) (by decide)).1

end UrlShortener
